import Mathlib

/-!
Verification of `be/src/util/network_util.cpp`

A shallow embedding of the network utilities of the `palo` back end and the
properties of them that the specification states.

The functions of the file talk to the operating system (`getaddrinfo`,
`inet_ntop`, `getifaddrs`, `freeaddrinfo`, `freeifaddrs`).  The embedding makes
the answers of the operating system an explicit argument (`OsLayer`) and the
number of acquisitions and releases of OS-owned structures an explicit state
(`OsState`) that every function takes and returns.  Output parameters of the
C++ functions (`std::string* addr`, `std::vector<std::string>* addresses`,
`std::string* local_ip`) are an argument holding the content before the call and
a component of the result holding the content after the call.  A linked list
of the OS is a `List`, the null pointer being the empty list.  `get_hostname`
takes no part in the properties below and is not embedded.
-/

namespace palo

/-! ## Data model -/

/-- The constant `static const std::string LOCALHOST("127.0.0.1")`. -/
def LOCALHOST : String := "127.0.0.1"

/-- The value of `AF_INET` in the socket headers of Linux. -/
def AF_INET : Nat := 2

/-- The value of `AF_INET6` in the socket headers of Linux. -/
def AF_INET6 : Nat := 10

/-- Modelled from the spec: the class `Status` is declared outside
`network_util.cpp`.  The file uses the constant `Status::OK` and the
constructor `Status(msg)`, which builds an error carrying a message. -/
inductive Status where
  | OK : Status
  | error (msg : String) : Status
  deriving DecidableEq, Repr

/-- Modelled from the spec: the Thrift structure `TNetworkAddress` is declared
outside `network_util.cpp`.  It pairs a host with an integer port; the setters
`__set_hostname` and `__set_port` store their argument in the field.  The port
is an `int` on both sides, so storing it changes nothing and `Int` stands for
it. -/
structure TNetworkAddress where
  hostname : String
  port : Int
  deriving DecidableEq, Repr

/-- The default-constructed `TNetworkAddress ret;`. -/
def TNetworkAddress.empty : TNetworkAddress := ⟨"", 0⟩

/-- The setter `__set_hostname`. -/
def TNetworkAddress.set_hostname (a : TNetworkAddress) (val : String) : TNetworkAddress :=
  { a with hostname := val }

/-- The setter `__set_port`. -/
def TNetworkAddress.set_port (a : TNetworkAddress) (val : Int) : TNetworkAddress :=
  { a with port := val }

/-- One record of the list that `getaddrinfo` returns.  `ntop` is what
`inet_ntop(AF_INET, &sin_addr, addr_buf, 64)` yields for the address of the
record: `none` for a `NULL` return, `some s` when `s` was written to
`addr_buf`. -/
structure addrinfo where
  ntop : Option String
  deriving DecidableEq, Repr

/-- The socket address of an interface: its family and the text that
`inet_ntop` writes to `addr_buf` for it. -/
structure sockaddr where
  sa_family : Nat
  text : String
  deriving DecidableEq, Repr

/-- One entry of the list that `getifaddrs` returns; `ifa_addr` is `none` for
a null pointer. -/
structure ifaddrs where
  ifa_addr : Option sockaddr
  deriving DecidableEq, Repr

/-- The answers of the operating system.  `getaddrinfo name` is `none` when
the call returns non-zero and the returned linked list otherwise;
`getifaddrs` is `none` when the call returns non-zero and the returned linked
list otherwise (the empty list is the null pointer); `strerror` is the text of
`strerror_r(errno, ...)`. -/
structure OsLayer where
  getaddrinfo : String → Option (List addrinfo)
  getifaddrs : Option (List ifaddrs)
  strerror : String

/-- Counters of the OS layer over the OS-owned result structures: `acquired`
counts the structures that successful calls of `getaddrinfo` and `getifaddrs`
handed out, `released` counts the structures that `freeaddrinfo` and
`freeifaddrs` released.  A null list is no structure: handing it out acquires
nothing and freeing it releases nothing. -/
structure OsState where
  acquired : Nat
  released : Nat
  deriving DecidableEq, Repr

/-- A successful `getaddrinfo` or `getifaddrs` that hands out the list `l`. -/
def OsState.acquire {α : Type} (st : OsState) (l : List α) : OsState :=
  if l.isEmpty then st else { st with acquired := st.acquired + 1 }

/-- A call of `freeaddrinfo(l)` or `freeifaddrs(l)`. -/
def OsState.release {α : Type} (st : OsState) (l : List α) : OsState :=
  if l.isEmpty then st else { st with released := st.released + 1 }

/-! ## The functions of `network_util.cpp` -/

/-- The `while (it != NULL)` loop of `hostname_to_ip_addrs`, lines 66-85,
with the two exits: a failed conversion calls `freeaddrinfo(addr_info)` and
returns an error, the end of the list calls `freeaddrinfo(addr_info)` and
returns `Status::OK`.  `addr_info` is the head of the list, the third argument
is the iterator `it`. -/
def hostname_to_ip_addrs_loop (name : String) (addr_info : List addrinfo) :
    List addrinfo → List String → OsState → Status × List String × OsState
  | [], addresses, st => (Status.OK, addresses, st.release addr_info)
  | it :: rest, addresses, st =>
    match it.ntop with
    | none =>
      (Status.error ("Could not convert IPv4 address for: " ++ name), addresses,
        st.release addr_info)
    | some addr_buf =>
      hostname_to_ip_addrs_loop name addr_info rest (addresses ++ [addr_buf]) st

/-- The function `hostname_to_ip_addrs(name, addresses)`. -/
def hostname_to_ip_addrs (os : OsLayer) (name : String) (addresses : List String)
    (st : OsState) : Status × List String × OsState :=
  match os.getaddrinfo name with
  | none => (Status.error ("Could not find IPv4 address for: " ++ name), addresses, st)
  | some addr_info =>
    hostname_to_ip_addrs_loop name addr_info addr_info addresses (st.acquire addr_info)

/-- The function `find_first_non_localhost(addresses, addr)`: the returned
flag and the content of `*addr` after the call. -/
def find_first_non_localhost : List String → String → Bool × String
  | [], addr => (false, addr)
  | candidate :: rest, addr =>
    if candidate ≠ LOCALHOST then (true, candidate)
    else find_first_non_localhost rest addr

/-- The `for` loop of `get_local_ip`, lines 108-130: the content of
`*local_ip` after the loop. -/
def get_local_ip_loop : List ifaddrs → String → String
  | [], local_ip => local_ip
  | if_addr :: rest, local_ip =>
    match if_addr.ifa_addr with
    | none => get_local_ip_loop rest local_ip
    | some sa =>
      if sa.sa_family = AF_INET then
        if LOCALHOST = sa.text then get_local_ip_loop rest local_ip
        else sa.text
      else if sa.sa_family = AF_INET6 then sa.text
      else get_local_ip_loop rest local_ip

/-- The function `get_local_ip(local_ip)`. -/
def get_local_ip (os : OsLayer) (local_ip : String) (st : OsState) :
    Status × String × OsState :=
  match os.getifaddrs with
  | none => (Status.error ("getifaddrs failed because " ++ os.strerror), local_ip, st)
  | some if_addrs =>
    let local_ip1 := get_local_ip_loop if_addrs local_ip
    let st1 := st.acquire if_addrs
    let st2 := if if_addrs ≠ [] then st1.release if_addrs else st1
    (Status.OK, local_ip1, st2)

/-- The function `make_network_address(hostname, port)`. -/
def make_network_address (hostname : String) (port : Int) : TNetworkAddress :=
  (TNetworkAddress.empty.set_hostname hostname).set_port port

/-! ## Predicates of the specification on interface entries -/

/-- An entry that the scan of `get_local_ip` passes over: it has no address,
or it is IPv4 with the text `127.0.0.1`, or its family is neither IPv4 nor
IPv6. -/
def skipped (e : ifaddrs) : Prop :=
  e.ifa_addr = none ∨
  ∃ sa, e.ifa_addr = some sa ∧
    ((sa.sa_family = AF_INET ∧ sa.text = LOCALHOST) ∨
     (sa.sa_family ≠ AF_INET ∧ sa.sa_family ≠ AF_INET6))

/-- An entry that the specification calls qualifying, with its text: it has
an address that is IPv4 with a text other than `127.0.0.1`, or IPv6. -/
def accepted (e : ifaddrs) (text : String) : Prop :=
  ∃ sa, e.ifa_addr = some sa ∧ sa.text = text ∧
    ((sa.sa_family = AF_INET ∧ sa.text ≠ LOCALHOST) ∨ sa.sa_family = AF_INET6)

/-! ## Concrete OS layers used as examples -/

/-- A host without any interface entry: `getifaddrs` succeeds with a null
list. -/
def os_no_interface : OsLayer :=
  { getaddrinfo := fun _ => none, getifaddrs := some [], strerror := "" }

/-- A host whose entries are one without address and the IPv4 loopback. -/
def os_loopback_only : OsLayer :=
  { getaddrinfo := fun _ => none
    getifaddrs := some [⟨none⟩, ⟨some ⟨AF_INET, "127.0.0.1"⟩⟩]
    strerror := "" }

/-- A host that enumerates the IPv4 loopback, the IPv6 loopback and then a
routable IPv4 address. -/
def os_ipv6_loopback_first : OsLayer :=
  { getaddrinfo := fun _ => none
    getifaddrs := some [⟨some ⟨AF_INET, "127.0.0.1"⟩⟩, ⟨some ⟨AF_INET6, "::1"⟩⟩,
      ⟨some ⟨AF_INET, "10.0.0.5"⟩⟩]
    strerror := "" }

/-- A host with an entry of another family, then a routable IPv4 address,
then an IPv6 address. -/
def os_ipv4_first : OsLayer :=
  { getaddrinfo := fun _ => none
    getifaddrs := some [⟨some ⟨17, ""⟩⟩, ⟨none⟩, ⟨some ⟨AF_INET, "10.0.0.5"⟩⟩,
      ⟨some ⟨AF_INET6, "fe80::1"⟩⟩]
    strerror := "" }

/-- A resolver that answers every name with two records that convert. -/
def os_two_records : OsLayer :=
  { getaddrinfo := fun _ => some [⟨some "10.0.0.5"⟩, ⟨some "10.0.0.5"⟩]
    getifaddrs := none, strerror := "" }

/-- A resolver whose second record fails to convert. -/
def os_second_fails : OsLayer :=
  { getaddrinfo := fun _ => some [⟨some "10.0.0.5"⟩, ⟨none⟩, ⟨some "10.0.0.6"⟩]
    getifaddrs := none, strerror := "" }

/-- A resolver that fails on every name. -/
def os_no_resolver : OsLayer :=
  { getaddrinfo := fun _ => none, getifaddrs := none, strerror := "" }

/-! ## Lemmas on the loops -/

theorem find_first_non_localhost_all (addresses : List String) (addr : String)
    (h : ∀ a ∈ addresses, a = LOCALHOST) :
    find_first_non_localhost addresses addr = (false, addr) := by
  induction addresses with
  | nil => rfl
  | cons c rest ih =>
    have hc : c = LOCALHOST := h c (List.mem_cons_self _ _)
    have hr : ∀ a ∈ rest, a = LOCALHOST := fun a ha => h a (List.mem_cons_of_mem _ ha)
    simp [find_first_non_localhost, hc, ih hr]

theorem find_first_non_localhost_split (pre post : List String) (c addr : String)
    (hpre : ∀ a ∈ pre, a = LOCALHOST) (hc : c ≠ LOCALHOST) :
    find_first_non_localhost (pre ++ c :: post) addr = (true, c) := by
  induction pre with
  | nil => simp [find_first_non_localhost, hc]
  | cons p rest ih =>
    have hp : p = LOCALHOST := hpre p (List.mem_cons_self _ _)
    have hr : ∀ a ∈ rest, a = LOCALHOST := fun a ha => hpre a (List.mem_cons_of_mem _ ha)
    simp [find_first_non_localhost, hp, ih hr]

theorem exists_first_non_localhost (addresses : List String)
    (h : ∃ a ∈ addresses, a ≠ LOCALHOST) :
    ∃ pre c post, addresses = pre ++ c :: post ∧
      (∀ a ∈ pre, a = LOCALHOST) ∧ c ≠ LOCALHOST := by
  induction addresses with
  | nil => obtain ⟨a, ha, _⟩ := h; cases ha
  | cons x rest ih =>
    by_cases hx : x = LOCALHOST
    · have h2 : ∃ a ∈ rest, a ≠ LOCALHOST := by
        obtain ⟨a, ha, hne⟩ := h
        rcases List.mem_cons.mp ha with rfl | hmem
        · exact absurd hx hne
        · exact ⟨a, hmem, hne⟩
      obtain ⟨pre, c, post, heq, hpre, hc⟩ := ih h2
      refine ⟨x :: pre, c, post, by simp [heq], ?_, hc⟩
      intro a ha
      rcases List.mem_cons.mp ha with rfl | hmem
      · exact hx
      · exact hpre a hmem
    · exact ⟨[], x, rest, rfl, fun a ha => absurd ha (List.not_mem_nil a), hx⟩

theorem skipped_or_accepted (e : ifaddrs) : skipped e ∨ ∃ text, accepted e text := by
  rcases e with ⟨_ | sa⟩
  · exact Or.inl (Or.inl rfl)
  · by_cases h4 : sa.sa_family = AF_INET
    · by_cases ht : sa.text = LOCALHOST
      · exact Or.inl (Or.inr ⟨sa, rfl, Or.inl ⟨h4, ht⟩⟩)
      · exact Or.inr ⟨sa.text, sa, rfl, rfl, Or.inl ⟨h4, ht⟩⟩
    · by_cases h6 : sa.sa_family = AF_INET6
      · exact Or.inr ⟨sa.text, sa, rfl, rfl, Or.inr h6⟩
      · exact Or.inl (Or.inr ⟨sa, rfl, Or.inr ⟨h4, h6⟩⟩)

theorem not_skipped_of_accepted (e : ifaddrs) (text : String) (ha : accepted e text) :
    ¬ skipped e := by
  obtain ⟨sa, hsa, _, hfam⟩ := ha
  rintro (hnone | ⟨sb, hsb, hcase⟩)
  · rw [hsa] at hnone; exact Option.noConfusion hnone
  · rw [hsa] at hsb
    have hsab : sa = sb := Option.some.inj hsb
    subst hsab
    rcases hcase with ⟨_, htext⟩ | ⟨hn4, hn6⟩
    · rcases hfam with ⟨_, hne⟩ | h6
      · exact hne htext
      · have : AF_INET = AF_INET6 := by rw [← h6]; symm; assumption
        exact absurd this (by decide)
    · rcases hfam with ⟨h4, _⟩ | h6
      · exact hn4 h4
      · exact hn6 h6

theorem get_local_ip_loop_cons_skipped (e : ifaddrs) (rest : List ifaddrs)
    (local_ip : String) (h : skipped e) :
    get_local_ip_loop (e :: rest) local_ip = get_local_ip_loop rest local_ip := by
  rcases h with hnone | ⟨sa, hsa, ⟨h4, ht⟩ | ⟨hn4, hn6⟩⟩
  · simp [get_local_ip_loop, hnone]
  · simp [get_local_ip_loop, hsa, h4, ht]
  · simp [get_local_ip_loop, hsa, hn4, hn6]

theorem get_local_ip_loop_cons_accepted (e : ifaddrs) (rest : List ifaddrs)
    (local_ip text : String) (h : accepted e text) :
    get_local_ip_loop (e :: rest) local_ip = text := by
  obtain ⟨sa, hsa, htext, hfam⟩ := h
  subst htext
  rcases hfam with ⟨h4, hne⟩ | h6
  · have hne2 : ¬ LOCALHOST = sa.text := fun heq => hne heq.symm
    simp [get_local_ip_loop, hsa, h4, hne2]
  · have hn4 : ¬ AF_INET6 = AF_INET := by decide
    simp [get_local_ip_loop, hsa, h6, hn4]

theorem get_local_ip_loop_skip_leading (pre rest : List ifaddrs) (local_ip : String)
    (h : ∀ x ∈ pre, skipped x) :
    get_local_ip_loop (pre ++ rest) local_ip = get_local_ip_loop rest local_ip := by
  induction pre with
  | nil => rfl
  | cons p ps ih =>
    have hp : skipped p := h p (List.mem_cons_self _ _)
    have hps : ∀ x ∈ ps, skipped x := fun x hx => h x (List.mem_cons_of_mem _ hx)
    rw [List.cons_append, get_local_ip_loop_cons_skipped p (ps ++ rest) local_ip hp, ih hps]

theorem get_local_ip_loop_all_skipped (if_addrs : List ifaddrs) (local_ip : String)
    (h : ∀ x ∈ if_addrs, skipped x) :
    get_local_ip_loop if_addrs local_ip = local_ip := by
  have := get_local_ip_loop_skip_leading if_addrs [] local_ip h
  rw [List.append_nil] at this
  rw [this]; rfl

theorem get_local_ip_status (os : OsLayer) (if_addrs : List ifaddrs) (local_ip : String)
    (st : OsState) (hos : os.getifaddrs = some if_addrs) :
    (get_local_ip os local_ip st).1 = Status.OK ∧
    (get_local_ip os local_ip st).2.1 = get_local_ip_loop if_addrs local_ip := by
  simp [get_local_ip, hos]

theorem os_loopback_only_skipped :
    ∀ x ∈ [(⟨none⟩ : ifaddrs), ⟨some ⟨AF_INET, "127.0.0.1"⟩⟩], skipped x := by
  intro x hx
  rcases List.mem_cons.mp hx with rfl | hx2
  · exact Or.inl rfl
  · rcases List.mem_cons.mp hx2 with rfl | hx3
    · exact Or.inr ⟨_, rfl, Or.inl ⟨rfl, rfl⟩⟩
    · exact absurd hx3 (List.not_mem_nil x)

/-! ## AddressFilter: `find_first_non_localhost` -/

/-- C1: for every address list holding an entry other than `127.0.0.1` (and
every prior content of the output), `find_first_non_localhost` returns true and
the output is the entry at the smallest index `i` whose value is not
`127.0.0.1`: the entry at `i` differs from `127.0.0.1`, every entry at an index
below `i` equals `127.0.0.1`, and the output is a member of the list. -/
theorem find_first_non_localhost_first (addresses : List String) (addr : String)
    (h : ∃ a ∈ addresses, a ≠ LOCALHOST) :
    ∃ (i : Nat) (out : String), addresses[i]? = some out ∧
      find_first_non_localhost addresses addr = (true, out) ∧
      out ≠ LOCALHOST ∧
      (∀ j : Nat, j < i → addresses[j]? = some LOCALHOST) ∧
      out ∈ addresses := by
  obtain ⟨pre, c, post, heq, hpre, hc⟩ := exists_first_non_localhost addresses h
  subst heq
  refine ⟨pre.length, c, by rw [List.getElem?_append_right (le_refl _)]; simp, find_first_non_localhost_split pre post c addr hpre hc,
    hc, ?_, by simp⟩
  intro j hj
  rw [List.getElem?_append_left hj]
  have hget : pre[j]? = some pre[j] := List.getElem?_eq_getElem hj
  rw [hget, hpre pre[j] (List.getElem_mem hj)]

/-- C1 at the list of the specification: on `10.0.0.5, 127.0.0.1` the
hypothesis holds and the call returns true with `10.0.0.5`; on
`127.0.0.1, 10.0.0.5, 10.0.0.6` the index of the theorem is 1. -/
theorem find_first_non_localhost_first_witness :
    find_first_non_localhost ["10.0.0.5", "127.0.0.1"] "" = (true, "10.0.0.5") ∧
    ∃ (i : Nat) (out : String), ["127.0.0.1", "10.0.0.5", "10.0.0.6"][i]? = some out ∧
      find_first_non_localhost ["127.0.0.1", "10.0.0.5", "10.0.0.6"] "" = (true, out) ∧
      out ≠ LOCALHOST ∧
      (∀ j : Nat, j < i → ["127.0.0.1", "10.0.0.5", "10.0.0.6"][j]? = some LOCALHOST) ∧
      out ∈ ["127.0.0.1", "10.0.0.5", "10.0.0.6"] :=
  ⟨by decide,
   find_first_non_localhost_first ["127.0.0.1", "10.0.0.5", "10.0.0.6"] ""
    ⟨"10.0.0.5", by decide, by decide⟩⟩

/-- C2: for every address list and every prior content of the output,
`find_first_non_localhost` returns false if and only if every entry equals
`127.0.0.1`; it returns false on the empty list and on
`127.0.0.1, 127.0.0.1`. -/
theorem find_first_non_localhost_false_iff :
    (∀ (addresses : List String) (addr : String),
      (find_first_non_localhost addresses addr).1 = false ↔
        ∀ a ∈ addresses, a = LOCALHOST) ∧
    (∀ addr : String, (find_first_non_localhost [] addr).1 = false) ∧
    (∀ addr : String,
      (find_first_non_localhost ["127.0.0.1", "127.0.0.1"] addr).1 = false) := by
  have key : ∀ (addresses : List String) (addr : String),
      (find_first_non_localhost addresses addr).1 = false ↔
        ∀ a ∈ addresses, a = LOCALHOST := by
    intro addresses addr
    constructor
    · intro hf
      by_contra hall
      push_neg at hall
      obtain ⟨pre, c, post, heq, hpre, hc⟩ := exists_first_non_localhost addresses hall
      subst heq
      rw [find_first_non_localhost_split pre post c addr hpre hc] at hf
      exact Bool.noConfusion hf
    · intro hall
      rw [find_first_non_localhost_all addresses addr hall]
  refine ⟨key, fun addr => rfl, fun addr => ?_⟩
  exact (key _ addr).mpr (by decide)

/-- C2 with the output holding `10.1.1.1` before the call: the call on
`127.0.0.1, 127.0.0.1` returns false. -/
theorem find_first_non_localhost_false_iff_witness :
    (find_first_non_localhost ["127.0.0.1", "127.0.0.1"] "10.1.1.1").1 = false :=
  find_first_non_localhost_false_iff.2.2 "10.1.1.1"

/-! ## LocalAddressFinder: `get_local_ip` -/

/-- C3: when the enumeration succeeds with the entries `pre`, `e`, `post` in
this order, every entry of `pre` is passed over (no address, IPv4 with text
`127.0.0.1`, or another family) and `e` has an address that is IPv4 with a
text other than `127.0.0.1` or IPv6 with any text, `get_local_ip` returns OK
and its result is the text of `e`, whatever `post` and the prior content of
the output are. -/
theorem get_local_ip_first_accepted (os : OsLayer) (pre post : List ifaddrs)
    (e : ifaddrs) (text local_ip : String) (st : OsState)
    (hos : os.getifaddrs = some (pre ++ e :: post))
    (hpre : ∀ x ∈ pre, skipped x) (he : accepted e text) :
    (get_local_ip os local_ip st).1 = Status.OK ∧
    (get_local_ip os local_ip st).2.1 = text := by
  obtain ⟨hst, hout⟩ := get_local_ip_status os (pre ++ e :: post) local_ip st hos
  refine ⟨hst, ?_⟩
  rw [hout, get_local_ip_loop_skip_leading pre (e :: post) local_ip hpre,
    get_local_ip_loop_cons_accepted e post local_ip text he]

/-- C3 on a host that enumerates an entry of family 17, an entry without
address, `10.0.0.5` (IPv4) and `fe80::1` (IPv6): the result is `10.0.0.5`. -/
theorem get_local_ip_first_accepted_witness :
    os_ipv4_first.getifaddrs =
      some ([⟨some ⟨17, ""⟩⟩, ⟨none⟩] ++ ⟨some ⟨AF_INET, "10.0.0.5"⟩⟩ ::
        [⟨some ⟨AF_INET6, "fe80::1"⟩⟩]) ∧
    (get_local_ip os_ipv4_first "" ⟨0, 0⟩).1 = Status.OK ∧
    (get_local_ip os_ipv4_first "" ⟨0, 0⟩).2.1 = "10.0.0.5" := by
  refine ⟨rfl, get_local_ip_first_accepted os_ipv4_first [⟨some ⟨17, ""⟩⟩, ⟨none⟩]
    [⟨some ⟨AF_INET6, "fe80::1"⟩⟩] ⟨some ⟨AF_INET, "10.0.0.5"⟩⟩ "10.0.0.5" "" ⟨0, 0⟩ rfl ?_
    ⟨_, rfl, rfl, Or.inl ⟨rfl, by decide⟩⟩⟩
  intro x hx
  rcases List.mem_cons.mp hx with rfl | hx2
  · exact Or.inr ⟨_, rfl, Or.inr ⟨by decide, by decide⟩⟩
  · rcases List.mem_cons.mp hx2 with rfl | hx3
    · exact Or.inl rfl
    · exact absurd hx3 (List.not_mem_nil x)

/-- C4 as stated fails: on a host whose enumeration succeeds with an entry
without address and the IPv4 loopback only, a call with the output holding
`10.1.1.1` returns OK and the output still holds `10.1.1.1`, not the empty
string. -/
theorem get_local_ip_none_found_not_empty :
    os_loopback_only.getifaddrs = some [⟨none⟩, ⟨some ⟨AF_INET, "127.0.0.1"⟩⟩] ∧
    (∀ x ∈ [(⟨none⟩ : ifaddrs), ⟨some ⟨AF_INET, "127.0.0.1"⟩⟩], skipped x) ∧
    (get_local_ip os_loopback_only "10.1.1.1" ⟨0, 0⟩).1 = Status.OK ∧
    (get_local_ip os_loopback_only "10.1.1.1" ⟨0, 0⟩).2.1 = "10.1.1.1" ∧
    (get_local_ip os_loopback_only "10.1.1.1" ⟨0, 0⟩).2.1 ≠ "" :=
  ⟨rfl, os_loopback_only_skipped, by decide, by decide, by decide⟩

/-- C4 amended: when the enumeration succeeds and every entry is passed over
(the empty enumeration included), `get_local_ip` returns OK and leaves the
output as it was before the call, for every prior content; the result is the
empty string when the output was empty before the call. -/
theorem get_local_ip_none_found_keeps_output (os : OsLayer) (if_addrs : List ifaddrs)
    (local_ip : String) (st : OsState)
    (hos : os.getifaddrs = some if_addrs) (hall : ∀ x ∈ if_addrs, skipped x) :
    (get_local_ip os local_ip st).1 = Status.OK ∧
    (get_local_ip os local_ip st).2.1 = local_ip ∧
    (local_ip = "" → (get_local_ip os local_ip st).2.1 = "") := by
  obtain ⟨hst, hout⟩ := get_local_ip_status os if_addrs local_ip st hos
  have hkeep : (get_local_ip os local_ip st).2.1 = local_ip := by
    rw [hout, get_local_ip_loop_all_skipped if_addrs local_ip hall]
  exact ⟨hst, hkeep, fun hempty => by rw [hkeep, hempty]⟩

/-- C4 amended, on the host with only the loopback and an empty output: the
result is OK with the empty string. -/
theorem get_local_ip_none_found_keeps_output_witness :
    (get_local_ip os_loopback_only "" ⟨0, 0⟩).1 = Status.OK ∧
    (get_local_ip os_loopback_only "" ⟨0, 0⟩).2.1 = "" ∧
    ("" = "" → (get_local_ip os_loopback_only "" ⟨0, 0⟩).2.1 = "") :=
  get_local_ip_none_found_keeps_output os_loopback_only
    [⟨none⟩, ⟨some ⟨AF_INET, "127.0.0.1"⟩⟩] "" ⟨0, 0⟩ rfl os_loopback_only_skipped

/-- C10: when the enumeration succeeds and an IPv6 entry with text `::1`
comes after entries that are all passed over, `get_local_ip` returns OK with
`::1`, whatever follows; and there is an enumeration holding the IPv4 entry
`10.0.0.5`, which is not the loopback, on which the result is `::1`. -/
theorem get_local_ip_ipv6_loopback_wins :
    (∀ (os : OsLayer) (pre post : List ifaddrs) (local_ip : String) (st : OsState),
      os.getifaddrs = some (pre ++ ⟨some ⟨AF_INET6, "::1"⟩⟩ :: post) →
      (∀ x ∈ pre, skipped x) →
      (get_local_ip os local_ip st).1 = Status.OK ∧
      (get_local_ip os local_ip st).2.1 = "::1") ∧
    (∃ (os : OsLayer) (if_addrs : List ifaddrs),
      os.getifaddrs = some if_addrs ∧
      (∃ e ∈ if_addrs, e.ifa_addr = some ⟨AF_INET, "10.0.0.5"⟩) ∧
      "10.0.0.5" ≠ LOCALHOST ∧
      ∀ (local_ip : String) (st : OsState),
        (get_local_ip os local_ip st).1 = Status.OK ∧
        (get_local_ip os local_ip st).2.1 = "::1") := by
  have key : ∀ (os : OsLayer) (pre post : List ifaddrs) (local_ip : String) (st : OsState),
      os.getifaddrs = some (pre ++ ⟨some ⟨AF_INET6, "::1"⟩⟩ :: post) →
      (∀ x ∈ pre, skipped x) →
      (get_local_ip os local_ip st).1 = Status.OK ∧
      (get_local_ip os local_ip st).2.1 = "::1" := by
    intro os pre post local_ip st hos hpre
    obtain ⟨hst, hout⟩ := get_local_ip_status os _ local_ip st hos
    refine ⟨hst, ?_⟩
    rw [hout, get_local_ip_loop_skip_leading pre _ local_ip hpre]
    exact get_local_ip_loop_cons_accepted _ post local_ip "::1" ⟨_, rfl, rfl, Or.inr rfl⟩
  refine ⟨key, os_ipv6_loopback_first, _, rfl, ⟨_, ?_, rfl⟩, by decide, ?_⟩
  · simp
  · intro local_ip st
    refine key os_ipv6_loopback_first [⟨some ⟨AF_INET, "127.0.0.1"⟩⟩]
      [⟨some ⟨AF_INET, "10.0.0.5"⟩⟩] local_ip st rfl ?_
    intro x hx
    rcases List.mem_cons.mp hx with rfl | hx2
    · exact Or.inr ⟨_, rfl, Or.inl ⟨rfl, rfl⟩⟩
    · exact absurd hx2 (List.not_mem_nil x)

/-- C10 on the host that enumerates `127.0.0.1`, `::1`, `10.0.0.5`: the
result is `::1` although `10.0.0.5` follows. -/
theorem get_local_ip_ipv6_loopback_wins_witness :
    get_local_ip os_ipv6_loopback_first "" ⟨0, 0⟩ = (Status.OK, "::1", ⟨1, 1⟩) ∧
    (get_local_ip os_ipv6_loopback_first "" ⟨0, 0⟩).2.1 = "::1" :=
  ⟨by decide,
   (get_local_ip_ipv6_loopback_wins.1 os_ipv6_loopback_first
     [⟨some ⟨AF_INET, "127.0.0.1"⟩⟩] [⟨some ⟨AF_INET, "10.0.0.5"⟩⟩] "" ⟨0, 0⟩ rfl
     (fun x hx => by
       rcases List.mem_cons.mp hx with rfl | hx2
       · exact Or.inr ⟨_, rfl, Or.inl ⟨rfl, rfl⟩⟩
       · exact absurd hx2 (List.not_mem_nil x))).2⟩

/-! ## DnsResolver: `hostname_to_ip_addrs` -/

theorem hostname_to_ip_addrs_loop_ok (name : String) (head recs : List addrinfo) :
    ∀ (texts addresses : List String) (st : OsState),
      recs.map addrinfo.ntop = texts.map some →
      hostname_to_ip_addrs_loop name head recs addresses st =
        (Status.OK, addresses ++ texts, st.release head) := by
  induction recs with
  | nil =>
    intro texts addresses st h
    cases texts with
    | nil => simp [hostname_to_ip_addrs_loop]
    | cons t ts => simp at h
  | cons r rs ih =>
    intro texts addresses st h
    cases texts with
    | nil => simp at h
    | cons t ts =>
      simp only [List.map_cons, List.cons.injEq] at h
      obtain ⟨hr, hrs⟩ := h
      simp only [hostname_to_ip_addrs_loop, hr]
      rw [ih ts (addresses ++ [t]) st hrs]
      simp

theorem hostname_to_ip_addrs_loop_fail (name : String) (head pre : List addrinfo)
    (bad : addrinfo) (post : List addrinfo) (hbad : bad.ntop = none) :
    ∀ (texts addresses : List String) (st : OsState),
      pre.map addrinfo.ntop = texts.map some →
      hostname_to_ip_addrs_loop name head (pre ++ bad :: post) addresses st =
        (Status.error ("Could not convert IPv4 address for: " ++ name),
          addresses ++ texts, st.release head) := by
  induction pre with
  | nil =>
    intro texts addresses st h
    cases texts with
    | nil => simp [hostname_to_ip_addrs_loop, hbad]
    | cons t ts => simp at h
  | cons r rs ih =>
    intro texts addresses st h
    cases texts with
    | nil => simp at h
    | cons t ts =>
      simp only [List.map_cons, List.cons.injEq] at h
      obtain ⟨hr, hrs⟩ := h
      have hstep :
          hostname_to_ip_addrs_loop name head ((r :: rs) ++ bad :: post) addresses st =
          hostname_to_ip_addrs_loop name head (rs ++ bad :: post) (addresses ++ [t]) st := by
        rw [List.cons_append]
        simp only [hostname_to_ip_addrs_loop, hr]
      rw [hstep, ih ts (addresses ++ [t]) st hrs]
      simp

theorem hostname_to_ip_addrs_loop_state_fail (name : String) (head pre : List addrinfo)
    (bad : addrinfo) (post : List addrinfo) (hbad : bad.ntop = none)
    (texts addresses : List String) (st : OsState)
    (heq : head = pre ++ bad :: post) (hpre : pre.map addrinfo.ntop = texts.map some) :
    (hostname_to_ip_addrs_loop name head head addresses st).2.1 = addresses ++ texts := by
  have h := hostname_to_ip_addrs_loop_fail name head pre bad post hbad texts addresses st hpre
  rw [← heq] at h
  rw [h]

theorem addrinfo_list_split (recs : List addrinfo) :
    (∃ texts : List String, recs.map addrinfo.ntop = texts.map some) ∨
    (∃ (pre : List addrinfo) (bad : addrinfo) (post : List addrinfo) (texts : List String),
      recs = pre ++ bad :: post ∧ pre.map addrinfo.ntop = texts.map some ∧
      bad.ntop = none) := by
  induction recs with
  | nil => exact Or.inl ⟨[], rfl⟩
  | cons r rs ih =>
    cases hr : r.ntop with
    | none => exact Or.inr ⟨[], r, rs, [], rfl, rfl, hr⟩
    | some t =>
      rcases ih with ⟨texts, h⟩ | ⟨pre, bad, post, texts, heq, hpre, hbad⟩
      · exact Or.inl ⟨t :: texts, by simp [hr, h]⟩
      · exact Or.inr ⟨r :: pre, bad, post, t :: texts, by simp [heq], by simp [hr, hpre], hbad⟩

theorem hostname_to_ip_addrs_loop_state (name : String) (head recs : List addrinfo) :
    ∀ (addresses : List String) (st : OsState),
      (hostname_to_ip_addrs_loop name head recs addresses st).2.2 = st.release head := by
  induction recs with
  | nil => intro addresses st; rfl
  | cons r rs ih =>
    intro addresses st
    cases hr : r.ntop with
    | none => simp [hostname_to_ip_addrs_loop, hr]
    | some t => simp only [hostname_to_ip_addrs_loop, hr]; exact ih _ st

theorem hostname_to_ip_addrs_loop_error_iff (name : String) (head recs : List addrinfo) :
    ∀ (addresses : List String) (st : OsState),
      (hostname_to_ip_addrs_loop name head recs addresses st).1 ≠ Status.OK ↔
        ∃ r ∈ recs, r.ntop = none := by
  induction recs with
  | nil => intro addresses st; simp [hostname_to_ip_addrs_loop]
  | cons r rs ih =>
    intro addresses st
    cases hr : r.ntop with
    | none => simp [hostname_to_ip_addrs_loop, hr]
    | some t =>
      simp only [hostname_to_ip_addrs_loop, hr]
      rw [ih (addresses ++ [t]) st]
      simp [hr]

/-- C5 as stated fails: when the first record converts to `10.0.0.5` and the
conversion of the second record fails, the call on an empty output returns an
error and the output holds `10.0.0.5`, an entry added by the call. -/
theorem hostname_to_ip_addrs_error_partial_output :
    os_second_fails.getaddrinfo "db1" =
      some [⟨some "10.0.0.5"⟩, ⟨none⟩, ⟨some "10.0.0.6"⟩] ∧
    (hostname_to_ip_addrs os_second_fails "db1" [] ⟨0, 0⟩).1 =
      Status.error "Could not convert IPv4 address for: db1" ∧
    (hostname_to_ip_addrs os_second_fails "db1" [] ⟨0, 0⟩).2.1 = ["10.0.0.5"] ∧
    (hostname_to_ip_addrs os_second_fails "db1" [] ⟨0, 0⟩).2.1 ≠ [] :=
  ⟨rfl, by decide, by decide, by decide⟩

/-- C5 amended: whenever `hostname_to_ip_addrs` returns an error, either the
OS lookup failed and the output equals its content before the call, or the
lookup returned records `pre`, `bad`, `post` in this order where every record
of `pre` converted, the conversion of `bad` failed, and the output equals its
content before the call followed by the texts of `pre` in order (the records
of `post` add nothing). -/
theorem hostname_to_ip_addrs_error_output (os : OsLayer) (name : String)
    (addresses : List String) (st : OsState)
    (herr : (hostname_to_ip_addrs os name addresses st).1 ≠ Status.OK) :
    (os.getaddrinfo name = none ∧
      (hostname_to_ip_addrs os name addresses st).2.1 = addresses) ∨
    (∃ (pre : List addrinfo) (bad : addrinfo) (post : List addrinfo) (texts : List String),
      os.getaddrinfo name = some (pre ++ bad :: post) ∧
      pre.map addrinfo.ntop = texts.map some ∧ bad.ntop = none ∧
      (hostname_to_ip_addrs os name addresses st).2.1 = addresses ++ texts) := by
  cases hos : os.getaddrinfo name with
  | none => exact Or.inl ⟨rfl, by simp [hostname_to_ip_addrs, hos]⟩
  | some recs =>
    right
    rcases addrinfo_list_split recs with ⟨texts, h⟩ | ⟨pre, bad, post, texts, heq, hpre, hbad⟩
    · exfalso
      apply herr
      simp only [hostname_to_ip_addrs, hos]
      rw [hostname_to_ip_addrs_loop_ok name recs recs texts addresses _ h]
    · refine ⟨pre, bad, post, texts, by rw [heq], hpre, hbad, ?_⟩
      simp only [hostname_to_ip_addrs, hos]
      rw [hostname_to_ip_addrs_loop_state_fail name recs pre bad post hbad texts addresses _ heq hpre]

/-- C5 amended, on the resolver whose second record fails, with the output
holding `10.9.9.9` before the call. -/
theorem hostname_to_ip_addrs_error_output_witness :
    (hostname_to_ip_addrs os_second_fails "db1" ["10.9.9.9"] ⟨0, 0⟩).1 ≠ Status.OK ∧
    (hostname_to_ip_addrs os_second_fails "db1" ["10.9.9.9"] ⟨0, 0⟩).2.1 =
      ["10.9.9.9", "10.0.0.5"] ∧
    ((os_second_fails.getaddrinfo "db1" = none ∧
      (hostname_to_ip_addrs os_second_fails "db1" ["10.9.9.9"] ⟨0, 0⟩).2.1 = ["10.9.9.9"]) ∨
    (∃ (pre : List addrinfo) (bad : addrinfo) (post : List addrinfo) (texts : List String),
      os_second_fails.getaddrinfo "db1" = some (pre ++ bad :: post) ∧
      pre.map addrinfo.ntop = texts.map some ∧ bad.ntop = none ∧
      (hostname_to_ip_addrs os_second_fails "db1" ["10.9.9.9"] ⟨0, 0⟩).2.1 =
        ["10.9.9.9"] ++ texts)) :=
  ⟨by decide, by decide,
   hostname_to_ip_addrs_error_output os_second_fails "db1" ["10.9.9.9"] ⟨0, 0⟩ (by decide)⟩

/-- C6: when the OS lookup of the name succeeds with records whose
conversions all succeed, giving the texts `texts` record by record,
`hostname_to_ip_addrs` returns OK and the output is its content before the
call followed by `texts`, in the order of the records and with one entry per
record; with no record and an empty output before the call the output is the
empty list. -/
theorem hostname_to_ip_addrs_ok_output (os : OsLayer) (name : String)
    (addresses : List String) (st : OsState) (recs : List addrinfo) (texts : List String)
    (hos : os.getaddrinfo name = some recs)
    (hconv : recs.map addrinfo.ntop = texts.map some) :
    (hostname_to_ip_addrs os name addresses st).1 = Status.OK ∧
    (hostname_to_ip_addrs os name addresses st).2.1 = addresses ++ texts ∧
    texts.length = recs.length ∧
    (recs = [] → addresses = [] → (hostname_to_ip_addrs os name addresses st).2.1 = []) := by
  have hrun : hostname_to_ip_addrs os name addresses st =
      (Status.OK, addresses ++ texts, (st.acquire recs).release recs) := by
    simp only [hostname_to_ip_addrs, hos]
    exact hostname_to_ip_addrs_loop_ok name recs recs texts addresses _ hconv
  have hlen : texts.length = recs.length := by
    have := congrArg List.length hconv
    simpa using this.symm
  refine ⟨by rw [hrun], by rw [hrun], hlen, ?_⟩
  intro hrecs haddr
  subst hrecs
  subst haddr
  have htexts : texts = [] := List.length_eq_zero.mp (by simpa using hlen)
  rw [hrun, htexts]
  rfl

/-- C6 on the resolver that returns the same address twice, with the output
holding `10.9.9.9` before the call: both records are appended, in order. -/
theorem hostname_to_ip_addrs_ok_output_witness :
    (hostname_to_ip_addrs os_two_records "db1" ["10.9.9.9"] ⟨0, 0⟩).1 = Status.OK ∧
    (hostname_to_ip_addrs os_two_records "db1" ["10.9.9.9"] ⟨0, 0⟩).2.1 =
      ["10.9.9.9"] ++ ["10.0.0.5", "10.0.0.5"] ∧
    ["10.0.0.5", "10.0.0.5"].length = [(⟨some "10.0.0.5"⟩ : addrinfo), ⟨some "10.0.0.5"⟩].length ∧
    ([(⟨some "10.0.0.5"⟩ : addrinfo), ⟨some "10.0.0.5"⟩] = [] → ["10.9.9.9"] = [] →
      (hostname_to_ip_addrs os_two_records "db1" ["10.9.9.9"] ⟨0, 0⟩).2.1 = []) :=
  hostname_to_ip_addrs_ok_output os_two_records "db1" ["10.9.9.9"] ⟨0, 0⟩
    [⟨some "10.0.0.5"⟩, ⟨some "10.0.0.5"⟩] ["10.0.0.5", "10.0.0.5"] rfl rfl

/-- C7: `hostname_to_ip_addrs` returns an error exactly when the OS lookup
fails or the lookup succeeds and the conversion of one of the returned records
fails, and returns OK otherwise; when the OS lookup fails the error message is
`Could not find IPv4 address for: ` followed by the queried name. -/
theorem hostname_to_ip_addrs_error_iff (os : OsLayer) (name : String)
    (addresses : List String) (st : OsState) :
    ((hostname_to_ip_addrs os name addresses st).1 ≠ Status.OK ↔
      (os.getaddrinfo name = none ∨
        ∃ recs, os.getaddrinfo name = some recs ∧ ∃ r ∈ recs, r.ntop = none)) ∧
    ((hostname_to_ip_addrs os name addresses st).1 = Status.OK ↔
      ∃ recs, os.getaddrinfo name = some recs ∧ ∀ r ∈ recs, r.ntop ≠ none) ∧
    (os.getaddrinfo name = none →
      (hostname_to_ip_addrs os name addresses st).1 =
        Status.error ("Could not find IPv4 address for: " ++ name)) := by
  cases hos : os.getaddrinfo name with
  | none => simp [hostname_to_ip_addrs, hos]
  | some recs =>
    have hiff := hostname_to_ip_addrs_loop_error_iff name recs recs addresses (st.acquire recs)
    have hrun : hostname_to_ip_addrs os name addresses st =
        hostname_to_ip_addrs_loop name recs recs addresses (st.acquire recs) := by
      simp only [hostname_to_ip_addrs, hos]
    rw [hrun]
    refine ⟨?_, ?_, fun h => Option.noConfusion h⟩
    · rw [hiff]; simp
    · have hnot := not_congr hiff
      rw [not_not] at hnot
      rw [hnot]; simp

/-- C7 on the resolver that fails on every name: the call for `nohost`
returns the error `Could not find IPv4 address for: nohost`. -/
theorem hostname_to_ip_addrs_error_iff_witness :
    (hostname_to_ip_addrs os_no_resolver "nohost" [] ⟨0, 0⟩).1 =
      Status.error "Could not find IPv4 address for: nohost" :=
  (hostname_to_ip_addrs_error_iff os_no_resolver "nohost" [] ⟨0, 0⟩).2.2 rfl

/-! ## Release of the OS-owned structures -/

/-- C8: in every execution of `hostname_to_ip_addrs` and of `get_local_ip` the
structures released are as many as the structures acquired; when the OS call
succeeded and returned a structure, the counter of acquired structures and the
counter of released structures both grow by exactly one, whether the function
returns OK or a conversion error; when the OS call succeeded with a null list,
which is no structure, and when the OS call failed, nothing is acquired and
nothing is released. -/
theorem os_structure_released_once :
    (∀ (os : OsLayer) (name : String) (addresses : List String) (st : OsState),
      ((hostname_to_ip_addrs os name addresses st).2.2.released + st.acquired =
        (hostname_to_ip_addrs os name addresses st).2.2.acquired + st.released) ∧
      (∀ recs, os.getaddrinfo name = some recs → recs ≠ [] →
        (hostname_to_ip_addrs os name addresses st).2.2 =
          ⟨st.acquired + 1, st.released + 1⟩) ∧
      (os.getaddrinfo name = some [] →
        (hostname_to_ip_addrs os name addresses st).2.2 = st) ∧
      (os.getaddrinfo name = none →
        (hostname_to_ip_addrs os name addresses st).2.2 = st)) ∧
    (∀ (os : OsLayer) (local_ip : String) (st : OsState),
      ((get_local_ip os local_ip st).2.2.released + st.acquired =
        (get_local_ip os local_ip st).2.2.acquired + st.released) ∧
      (∀ if_addrs, os.getifaddrs = some if_addrs → if_addrs ≠ [] →
        (get_local_ip os local_ip st).2.2 = ⟨st.acquired + 1, st.released + 1⟩) ∧
      (os.getifaddrs = some [] → (get_local_ip os local_ip st).2.2 = st) ∧
      (os.getifaddrs = none → (get_local_ip os local_ip st).2.2 = st)) := by
  have hname : ∀ (os : OsLayer) (name : String) (addresses : List String) (st : OsState)
      (recs : List addrinfo), os.getaddrinfo name = some recs →
      (hostname_to_ip_addrs os name addresses st).2.2 = (st.acquire recs).release recs := by
    intro os name addresses st recs hos
    simp only [hostname_to_ip_addrs, hos]
    exact hostname_to_ip_addrs_loop_state name recs recs addresses (st.acquire recs)
  have hip : ∀ (os : OsLayer) (local_ip : String) (st : OsState)
      (if_addrs : List ifaddrs), os.getifaddrs = some if_addrs →
      (get_local_ip os local_ip st).2.2 = (st.acquire if_addrs).release if_addrs := by
    intro os local_ip st if_addrs hos
    by_cases hne : if_addrs = []
    · simp [get_local_ip, hos, hne, OsState.release]
    · simp [get_local_ip, hos, hne]
  have hpair : ∀ {α : Type} (st : OsState) (l : List α),
      ((st.acquire l).release l).released + st.acquired =
        ((st.acquire l).release l).acquired + st.released ∧
      (l ≠ [] → (st.acquire l).release l = ⟨st.acquired + 1, st.released + 1⟩) ∧
      (l = [] → (st.acquire l).release l = st) := by
    intro α st l
    cases l with
    | nil => simp [OsState.acquire, OsState.release, Nat.add_comm]
    | cons x xs =>
      simp [OsState.acquire, OsState.release]
      omega
  refine ⟨fun os name addresses st => ?_, fun os local_ip st => ?_⟩
  · cases hos : os.getaddrinfo name with
    | none =>
      have hst : (hostname_to_ip_addrs os name addresses st).2.2 = st := by
        simp [hostname_to_ip_addrs, hos]
      refine ⟨by rw [hst, Nat.add_comm], fun recs h => Option.noConfusion h,
        fun h => Option.noConfusion h, fun _ => hst⟩
    | some recs =>
      have hst := hname os name addresses st recs hos
      obtain ⟨hbal, hone, hnull⟩ := hpair st recs
      refine ⟨by rw [hst]; exact hbal, ?_, ?_, fun h => Option.noConfusion h⟩
      · intro recs2 h2 hne
        have heq : recs = recs2 := Option.some.inj h2
        subst heq
        rw [hst]; exact hone hne
      · intro h2
        have heq : recs = [] := Option.some.inj h2
        rw [hst]; exact hnull heq
  · cases hos : os.getifaddrs with
    | none =>
      have hst : (get_local_ip os local_ip st).2.2 = st := by
        simp [get_local_ip, hos]
      refine ⟨by rw [hst, Nat.add_comm], fun l h => Option.noConfusion h,
        fun h => Option.noConfusion h, fun _ => hst⟩
    | some if_addrs =>
      have hst := hip os local_ip st if_addrs hos
      obtain ⟨hbal, hone, hnull⟩ := hpair st if_addrs
      refine ⟨by rw [hst]; exact hbal, ?_, ?_, fun h => Option.noConfusion h⟩
      · intro l2 h2 hne
        have heq : if_addrs = l2 := Option.some.inj h2
        subst heq
        rw [hst]; exact hone hne
      · intro h2
        have heq : if_addrs = [] := Option.some.inj h2
        rw [hst]; exact hnull heq

/-- C8 on the resolver whose second record fails and on the host that
enumerates `127.0.0.1`, `::1`, `10.0.0.5`, starting from counters 3 and 3: the
first call returns an error, the second returns OK, and each acquires one
structure and releases one structure. -/
theorem os_structure_released_once_witness :
    (hostname_to_ip_addrs os_second_fails "db1" [] ⟨3, 3⟩).1 ≠ Status.OK ∧
    (hostname_to_ip_addrs os_second_fails "db1" [] ⟨3, 3⟩).2.2 = ⟨3 + 1, 3 + 1⟩ ∧
    (get_local_ip os_ipv6_loopback_first "" ⟨3, 3⟩).1 = Status.OK ∧
    (get_local_ip os_ipv6_loopback_first "" ⟨3, 3⟩).2.2 = ⟨3 + 1, 3 + 1⟩ ∧
    (get_local_ip os_no_interface "" ⟨3, 3⟩).2.2 = ⟨3, 3⟩ ∧
    (get_local_ip os_no_resolver "" ⟨3, 3⟩).2.2 = ⟨3, 3⟩ :=
  ⟨by decide,
   (os_structure_released_once.1 os_second_fails "db1" [] ⟨3, 3⟩).2.1 _ rfl (by decide),
   by decide,
   (os_structure_released_once.2 os_ipv6_loopback_first "" ⟨3, 3⟩).2.1 _ rfl (by decide),
   (os_structure_released_once.2 os_no_interface "" ⟨3, 3⟩).2.2.1 rfl,
   (os_structure_released_once.2 os_no_resolver "" ⟨3, 3⟩).2.2.2 rfl⟩

/-! ## NetworkAddressBuilder: `make_network_address` -/

/-- C9: for every host string and every integer port, `make_network_address`
returns a `TNetworkAddress` whose hostname is the given host and whose port is
the given port; two calls with equal arguments return equal values. -/
theorem make_network_address_fields (hostname : String) (port : Int) :
    (make_network_address hostname port).hostname = hostname ∧
    (make_network_address hostname port).port = port ∧
    (∀ (hostname2 : String) (port2 : Int), hostname2 = hostname → port2 = port →
      make_network_address hostname2 port2 = make_network_address hostname port) :=
  ⟨rfl, rfl, fun _ _ h1 h2 => by rw [h1, h2]⟩

/-- C9 at the values of the specification, and at a port outside 0-65535. -/
theorem make_network_address_fields_witness :
    make_network_address "host1" 8080 = ⟨"host1", 8080⟩ ∧
    (make_network_address "" (-70000)).port = -70000 :=
  ⟨by
    have h := make_network_address_fields "host1" 8080
    exact congrArg₂ TNetworkAddress.mk h.1 h.2.1,
   (make_network_address_fields "" (-70000)).2.1⟩

end palo
